import Mathlib

/-!
Shallow embedding of the UDP transport core of a DNS proxy
(`src/proxy/server_udp.go`): listener setup (`createUDPListeners`,
`udpCreate`), the packet ingestion loop (`udpPacketLoop`), the packet
handler (`udpHandlePacket`) and the responder (`respondUDP`), together
with proofs of the specified properties.

External collaborators (the `miekg/dns` codec, `proxyutil` socket
helpers, the request resolver) are modelled as function parameters, so
the theorems hold for every implementation of those collaborators;
where a fact about a collaborator is needed it appears as an explicit
hypothesis.
-/

namespace DnsProxy

/-- Model of a `*net.UDPConn` value (identity only; the socket's state
is irrelevant to the control flow being verified). -/
structure UDPConn where
  id : Nat
deriving DecidableEq, Repr

/-- Model of a `*net.UDPAddr` value. -/
structure UDPAddr where
  id : Nat
deriving DecidableEq, Repr

/-- Model of a `net.IP` value (the local interface address metadata). -/
structure IP where
  addr : Nat
deriving DecidableEq, Repr

/-- Model of a decoded `*dns.Msg`; its internal structure is opaque to
this core, so a bare identity suffices (packing and unpacking are
parameters of the functions below). -/
structure Msg where
  id : Nat
deriving DecidableEq, Repr

/-- Model of `resp.String()` on a `*dns.Msg` (used only inside an error
decoration message). -/
def Msg.str (m : Msg) : String := toString m.id

/-- Model of a Go `error` value, keeping track of how it was built:
`base` is an error produced by a syscall or library, `decorated e m` is
`errorx.Decorate(e, m)`, and `errorf m` is `fmt.Errorf(m)`. -/
inductive GoError where
  | base (msg : String)
  | decorated (cause : GoError) (msg : String)
  | errorf (msg : String)
deriving DecidableEq, Repr

/-- Model of a Go `net.Conn` interface value: either the concrete
`*net.UDPConn` or a value of some other dynamic type (on which the
type assertion `d.Conn.(*net.UDPConn)` panics). -/
inductive NetConn where
  | udpConn (c : UDPConn)
  | otherConn (id : Nat)
deriving DecidableEq, Repr

/-- Model of a Go `net.Addr` interface value: either the concrete
`*net.UDPAddr` or a value of some other dynamic type. -/
inductive NetAddr where
  | udpAddr (a : UDPAddr)
  | otherAddr (id : Nat)
deriving DecidableEq, Repr

/-- Model of the `Proto` transport tag. -/
inductive Proto where
  | ProtoUDP
  | ProtoTCP
deriving DecidableEq, Repr

/-- Model of `DNSContext`: the per-request context assembled by
`udpHandlePacket` and consumed by `respondUDP`.  `Req` and `Res` are
`Option` because the corresponding Go fields are nilable pointers. -/
structure DNSContext where
  proto : Proto
  Req : Option Msg
  Res : Option Msg
  Addr : NetAddr
  Conn : NetConn
  localIP : IP
deriving DecidableEq, Repr

/-- Runtime faults of Go code that performs no check: dereferencing a
nil pointer, or a failed interface type assertion `x.(T)`. -/
inductive Fault where
  | nilDeref
  | badTypeAssertion
deriving DecidableEq, Repr

/-- Shallow embedding of `respondUDP` (`server_udp.go`).  The codec
(`pack`, modelling `resp.Pack()`), the socket write (`udpWrite`,
modelling `proxyutil.UDPWrite`, returning the byte count and an
optional error) and the closed-socket test (`isConnClosed`, modelling
`proxyutil.IsConnClosed`) are parameters.  The result is `.error f`
when the Go code would panic with fault `f`, and `.ok e` when it
returns the Go error value `e` (`none` = `nil` = success). -/
def respondUDP (pack : Msg → Except GoError (List Nat))
    (udpWrite : List Nat → UDPConn → UDPAddr → IP → Nat × Option GoError)
    (isConnClosed : Option GoError → Bool)
    (d : DNSContext) : Except Fault (Option GoError) :=
  match d.Res with
  | none => .error .nilDeref
  | some resp =>
    match pack resp with
    | .error e =>
      .ok (some (.decorated e
        ("couldn't convert message into wire format: " ++ resp.str)))
    | .ok bytes =>
      match d.Conn with
      | .otherConn _ => .error .badTypeAssertion
      | .udpConn conn =>
        match d.Addr with
        | .otherAddr _ => .error .badTypeAssertion
        | .udpAddr rAddr =>
          let nw := udpWrite bytes conn rAddr d.localIP
          if nw.1 = 0 ∧ isConnClosed nw.2 then
            .ok nw.2
          else
            match nw.2 with
            | some e => .ok (some (.decorated e "udpWrite() returned error"))
            | none =>
              if nw.1 ≠ bytes.length then
                .ok (some (.errorf ("udpWrite() returned with " ++
                  toString nw.1 ++ " != " ++ toString bytes.length)))
              else
                .ok none

/-! ## Packet handler (`udpHandlePacket`) -/

/-- Observable effects of one `udpHandlePacket` invocation, in program
order: the trace log at entry, an error log, and the call to the
external resolver `p.handleDNSRequest` with the assembled context. -/
inductive HandleEffect where
  | logTrace
  | logError
  | resolved (d : DNSContext)
deriving DecidableEq, Repr

/-- Shallow embedding of `udpHandlePacket` (`server_udp.go`): decode
the bytes (`unpack` models `msg.Unpack(packet)`), on success build the
`DNSContext` and invoke the external resolver (`handleDNSRequest`,
returning an optional error); the function returns its ordered effect
trace.  The Go function itself returns nothing and sends nothing: any
response is sent by the resolver collaborator. -/
def udpHandlePacket (unpack : List Nat → Except GoError Msg)
    (handleDNSRequest : DNSContext → Option GoError)
    (packet : List Nat) (localIP : IP) (remoteAddr : UDPAddr)
    (conn : UDPConn) : List HandleEffect :=
  .logTrace ::
    match unpack packet with
    | .error _ => [.logError]
    | .ok msg =>
      let d : DNSContext :=
        { proto := .ProtoUDP
          Req := some msg
          Res := none
          Addr := .udpAddr remoteAddr
          Conn := .udpConn conn
          localIP := localIP }
      .resolved d ::
        match handleDNSRequest d with
        | some _ => [.logError]
        | none => []

/-! ## Packet ingestion loop (`udpPacketLoop`): action-trace model

The loop is driven by its environment: per iteration, the value of
`p.started` observed under the read lock, and (when the loop goes on to
read) the outcome of `proxyutil.UDPRead` — the byte count `n`, the
bytes the read deposited in the reusable buffer `b`, and an optional
error.  The loop body is deterministic given that input, so one
iteration is embedded as a function from the input to the ordered list
of actions the body performs. -/

/-- Environment input for one iteration of `udpPacketLoop`. -/
structure ReadEvent where
  started : Bool
  n : Nat
  data : List Nat
  err : Option GoError
deriving DecidableEq, Repr

/-- Observable actions of `udpPacketLoop`, in program order.
`closeConn` is in the vocabulary so that "the loop closes no resource"
is a statement about the trace; the loop never emits it. -/
inductive Action where
  | rlock
  | checkFlag (v : Bool)
  | runlock
  | readCall
  | acquireSlot
  | dispatch (packet : List Nat)
  | logMsg
  | closeConn
  | ret
deriving DecidableEq, Repr

/-- Action trace of one iteration of the `for` body of `udpPacketLoop`:
`p.RLock()`; read `p.started`; if false, `return` (note: the Go code
returns without `p.RUnlock()`); else `p.RUnlock()`, the blocking
`proxyutil.UDPRead`; if `n > 0`, copy the packet, acquire a gate slot
and launch the handler goroutine; if `err != nil`, log and `break`. -/
def iterTrace (e : ReadEvent) : List Action :=
  .rlock :: .checkFlag e.started ::
    if e.started then
      [.runlock, .readCall] ++
      (if 0 < e.n then [.acquireSlot, .dispatch (e.data.take e.n)] else []) ++
      (if e.err.isSome then [.logMsg, .ret] else [])
    else
      [.ret]

/-- Whether the iteration falls through to the next loop iteration:
it does iff the flag was true (no `return`) and the read reported no
error (no `break`). -/
def continues (e : ReadEvent) : Bool :=
  e.started && e.err.isNone

/-- Action trace of `udpPacketLoop` run against a finite prefix of
environment inputs: iterate the body, stopping when an iteration
returns or breaks (an exhausted input list just means the modelled
prefix ended with the loop still running). -/
def loopRun : List ReadEvent → List Action
  | [] => []
  | e :: rest => iterTrace e ++ if continues e then loopRun rest else []

/-- Number of read-lock acquisitions minus releases in a trace: the
read-lock hold count after the trace, for a loop that started with the
lock free. -/
def rlockBalance (tr : List Action) : Int :=
  (tr.count .rlock : Int) - (tr.count .runlock : Int)

/-! ## Buffer copy (`udpPacketLoop`, `n > 0` branch): heap model

Buffer freshness is a statement about object identity, so the `n > 0`
branch is also embedded against an explicit heap of byte buffers:
allocation (`make([]byte, n)`) appends a zeroed buffer and returns its
index, and `goCopy` is the semantics of Go's builtin `copy`. -/

/-- Heap of allocated byte buffers, indexed by allocation order. -/
abbrev Heap : Type := List (List Nat)

/-- Contents of buffer `i` (defined buffers only; `[]` otherwise). -/
def Heap.bufAt : Heap → Nat → List Nat
  | [], _ => []
  | b :: _, 0 => b
  | _ :: h, i + 1 => Heap.bufAt h i

/-- Model of `make([]byte, n)`: allocate a fresh zeroed buffer of
length `n`, returning the new heap and the fresh buffer's index. -/
def Heap.alloc (h : Heap) (n : Nat) : Heap × Nat :=
  (h ++ [List.replicate n 0], h.length)

/-- Semantics of Go's `copy(dst, src)`: the first `min |dst| |src|`
elements of `src`, then the rest of `dst` unchanged. -/
def goCopy (dst src : List Nat) : List Nat :=
  src.take dst.length ++ dst.drop src.length

/-- Heap embedding of the `n > 0` branch of `udpPacketLoop`:
`packet := make([]byte, n); copy(packet, b)`, where `bId` is the index
of the loop's reusable read buffer `b`.  Returns the new heap and the
index of the buffer handed to the handler goroutine. -/
def dispatchCopy (h : Heap) (bId n : Nat) : Heap × Nat :=
  let hp := h.alloc n
  (hp.1.set hp.2 (goCopy (hp.1.bufAt hp.2) (hp.1.bufAt bId)), hp.2)

/-! ## Concurrency gate (`requestGoroutinesSema`)

The semaphore implementation is not part of `server_udp.go`; modelled
from the spec: the Concurrency Gate is "a counting admission primitive
bounding the number of simultaneously executing packet-handling
tasks", whose `acquire` suspends the caller while the in-flight count
is at the configured maximum and whose `release` frees one slot.  The
loop acquires a slot before launching each handler goroutine, and the
goroutine body (`udpHandlePacket(...)` followed unconditionally by
`release()`) releases exactly that slot when it finishes, so the
system's in-flight count evolves by the two transitions below. -/

/-- One scheduler-visible transition of the gated system: the loop
launches a handler task (acquire + `go`), or a running task finishes
(its final, unconditional `release()`). -/
inductive GateEvent where
  | launch
  | finish
deriving DecidableEq, Repr

/-- Transition relation on the in-flight task count, for configured
maximum `max`: `launch` is enabled only when a slot is free (otherwise
`acquire` suspends the loop), and `finish` is enabled only when some
task is running (only running tasks release, and each releases once,
as `release()` is the unconditional last statement of the goroutine). -/
inductive GateStep (max : Nat) : Nat → GateEvent → Nat → Prop where
  | launch {k : Nat} : k < max → GateStep max k .launch (k + 1)
  | finish {k : Nat} : GateStep max (k + 1) .finish k

/-- In-flight counts reachable from the idle system (no task running)
by any interleaving of launches and finishes. -/
inductive GateReach (max : Nat) : Nat → Prop where
  | init : GateReach max 0
  | step {k k' : Nat} {e : GateEvent} :
      GateReach max k → GateStep max k e k' → GateReach max k'

/-! ## Listener setup (`createUDPListeners`, `udpCreate`) -/

/-- Environment outcomes for `udpCreate` on one configured address:
the result of `net.ListenUDP` (`listenErr`, with `sockId` the socket it
creates on success), of `SetReadBuffer` (`setBufErr`) and of
`proxyutil.UDPSetOptions` (`setOptsErr`). -/
structure AddrSpec where
  listenErr : Option GoError
  sockId : Nat
  setBufErr : Option GoError
  setOptsErr : Option GoError
deriving DecidableEq, Repr

/-- Observable side effects of listener setup: closing a socket, and
the informational log lines. -/
inductive SockEffect where
  | close (id : Nat)
  | logInfo
deriving DecidableEq, Repr

/-- Shallow embedding of `udpCreate` (`server_udp.go`): bind the
socket; if `p.Config.UDPBufferSize > 0`, apply it, closing the socket
and returning a decorated error on failure; apply the platform socket
options, closing the socket and returning a decorated error on
failure; on success log the bound address and return the socket.
Returns the ordered effect list and the result. -/
def udpCreate (bufSize : Int) (a : AddrSpec) :
    List SockEffect × Except GoError Nat :=
  match a.listenErr with
  | some e => ([], .error (.decorated e "couldn't listen to UDP socket"))
  | none =>
    match (if 0 < bufSize then a.setBufErr else none) with
    | some e =>
      ([.close a.sockId], .error (.decorated e "setting UDP buffer size failed"))
    | none =>
      match a.setOptsErr with
      | some e =>
        ([.close a.sockId], .error (.decorated e "udpSetOptions failed"))
      | none => ([.logInfo], .ok a.sockId)

/-- Shallow embedding of `createUDPListeners` (`server_udp.go`): run
`udpCreate` for each configured address in order, appending each
successful socket to the listener list; the first failure aborts and
returns that error.  Returns the accumulated effects and either the
listener list or the first error. -/
def createUDPListeners (bufSize : Int) :
    List AddrSpec → List SockEffect × Except GoError (List Nat)
  | [] => ([], .ok [])
  | a :: rest =>
    let r := udpCreate bufSize a
    match r.2 with
    | .error e => (r.1, .error e)
    | .ok sid =>
      let rs := createUDPListeners bufSize rest
      (r.1 ++ rs.1, rs.2.map (sid :: ·))

/-! ## Responder theorems -/

/-- C3: for a request context with a resolved response (and the UDP
concrete types in its fields), `respondUDP` returns success (`nil`)
iff encoding succeeds, the write returns no error, and the byte count
written equals the encoded length; a successful write of fewer bytes
than the encoded length yields the distinct short-write `fmt.Errorf`
error (not success, not a decorated write error); an encode failure is
returned as a decorated error without the write being attempted (the
result does not depend on the write function at all). -/
theorem respondUDP_success_iff
    (pack : Msg → Except GoError (List Nat))
    (udpWrite : List Nat → UDPConn → UDPAddr → IP → Nat × Option GoError)
    (isConnClosed : Option GoError → Bool)
    (d : DNSContext) (resp : Msg) (conn : UDPConn) (rAddr : UDPAddr)
    (hres : d.Res = some resp) (hconn : d.Conn = .udpConn conn)
    (haddr : d.Addr = .udpAddr rAddr)
    (hcc : isConnClosed none = false) :
    (respondUDP pack udpWrite isConnClosed d = .ok none ↔
      ∃ bytes, pack resp = .ok bytes ∧
        (udpWrite bytes conn rAddr d.localIP).2 = none ∧
        (udpWrite bytes conn rAddr d.localIP).1 = bytes.length)
    ∧ (∀ bytes, pack resp = .ok bytes →
        (udpWrite bytes conn rAddr d.localIP).2 = none →
        (udpWrite bytes conn rAddr d.localIP).1 ≠ bytes.length →
        respondUDP pack udpWrite isConnClosed d =
          .ok (some (.errorf ("udpWrite() returned with " ++
            toString (udpWrite bytes conn rAddr d.localIP).1 ++ " != " ++
            toString bytes.length))))
    ∧ (∀ e, pack resp = .error e →
        ∀ w2 : List Nat → UDPConn → UDPAddr → IP → Nat × Option GoError,
          respondUDP pack w2 isConnClosed d =
            .ok (some (.decorated e
              ("couldn't convert message into wire format: " ++ resp.str)))) := by
  refine ⟨?_, ?_, ?_⟩
  · cases hp : pack resp with
    | error e =>
      simp [respondUDP, hres, hconn, haddr, hp]
    | ok bytes =>
      by_cases hclosed : (udpWrite bytes conn rAddr d.localIP).1 = 0 ∧
          isConnClosed (udpWrite bytes conn rAddr d.localIP).2 = true
      · have h2 : (udpWrite bytes conn rAddr d.localIP).2 ≠ none := by
          intro h0
          rw [h0] at hclosed
          exact absurd hclosed.2 (by simp [hcc])
        simp only [respondUDP, hres, hconn, haddr, hp]
        rw [if_pos (by simpa using hclosed)]
        constructor
        · intro h
          exact absurd (Except.ok.inj h).symm (Ne.symm h2)
        · rintro ⟨b2, hb2, hw2, _⟩
          cases Except.ok.inj hb2
          exact absurd hw2 h2
      · cases hw : (udpWrite bytes conn rAddr d.localIP).2 with
        | some e =>
          simp only [respondUDP, hres, hconn, haddr, hp]
          rw [if_neg (by simpa [hw] using hclosed), hw]
          constructor
          · intro h
            exact absurd (Except.ok.inj h) (by simp)
          · rintro ⟨b2, hb2, hw2, _⟩
            cases Except.ok.inj hb2
            rw [hw] at hw2
            exact absurd hw2 (by simp)
        | none =>
          by_cases hn : (udpWrite bytes conn rAddr d.localIP).1 = bytes.length
          · simp only [respondUDP, hres, hconn, haddr, hp]
            rw [if_neg (by simpa [hw] using hclosed), hw, if_neg (by simpa using hn)]
            simp only [true_iff]
            exact ⟨bytes, rfl, hw, hn⟩
          · simp only [respondUDP, hres, hconn, haddr, hp]
            rw [if_neg (by simpa [hw] using hclosed), hw, if_pos (by simpa using hn)]
            constructor
            · intro h
              exact absurd (Except.ok.inj h) (by simp)
            · rintro ⟨b2, hb2, hw2, hn2⟩
              cases Except.ok.inj hb2
              exact absurd hn2 hn
  · intro bytes hp hw hn
    have hclosed : ¬((udpWrite bytes conn rAddr d.localIP).1 = 0 ∧
        isConnClosed (udpWrite bytes conn rAddr d.localIP).2 = true) := by
      rw [hw, hcc]
      simp
    simp only [respondUDP, hres, hconn, haddr, hp]
    rw [if_neg (by simpa using hclosed), hw, if_pos (by simpa using hn)]
  · intro e hp w2
    simp [respondUDP, hres, hconn, haddr, hp]

/-- C3 witness: concrete instance of `respondUDP_success_iff` — with a
codec producing three bytes and a write reporting three bytes and no
error, `respondUDP` succeeds. -/
theorem respondUDP_success_iff_witness :
    respondUDP (fun _ => .ok [1, 2, 3]) (fun _ _ _ _ => (3, none))
      (fun _ => false)
      { proto := .ProtoUDP, Req := none, Res := some ⟨7⟩,
        Addr := .udpAddr ⟨3⟩, Conn := .udpConn ⟨2⟩, localIP := ⟨1⟩ } =
      .ok none :=
  ((respondUDP_success_iff (fun _ => .ok [1, 2, 3]) (fun _ _ _ _ => (3, none))
      (fun _ => false) _ ⟨7⟩ ⟨2⟩ ⟨3⟩ rfl rfl rfl rfl).1).mpr
    ⟨[1, 2, 3], rfl, rfl, rfl⟩

/-- C4: in `respondUDP`, when the write reports zero bytes written and
the error satisfies the closed-socket test, that error is returned
exactly as received, with no decoration; every other write error is
returned wrapped in the decorated `udpWrite() returned error`. -/
theorem respondUDP_closed_passthrough
    (pack : Msg → Except GoError (List Nat))
    (udpWrite : List Nat → UDPConn → UDPAddr → IP → Nat × Option GoError)
    (isConnClosed : Option GoError → Bool)
    (d : DNSContext) (resp : Msg) (conn : UDPConn) (rAddr : UDPAddr)
    (bytes : List Nat)
    (hres : d.Res = some resp) (hconn : d.Conn = .udpConn conn)
    (haddr : d.Addr = .udpAddr rAddr)
    (hp : pack resp = .ok bytes) :
    (∀ e, (udpWrite bytes conn rAddr d.localIP).2 = some e →
      (udpWrite bytes conn rAddr d.localIP).1 = 0 →
      isConnClosed (some e) = true →
      respondUDP pack udpWrite isConnClosed d = .ok (some e))
    ∧ (∀ e, (udpWrite bytes conn rAddr d.localIP).2 = some e →
      ¬((udpWrite bytes conn rAddr d.localIP).1 = 0 ∧ isConnClosed (some e) = true) →
      respondUDP pack udpWrite isConnClosed d =
        .ok (some (.decorated e "udpWrite() returned error"))) := by
  constructor
  · intro e hw hn hclosed
    simp only [respondUDP, hres, hconn, haddr, hp]
    rw [if_pos (by rw [hw]; exact ⟨hn, hclosed⟩), hw]
  · intro e hw hnc
    simp only [respondUDP, hres, hconn, haddr, hp]
    rw [if_neg (by rw [hw]; simpa using hnc), hw]

/-- C4 witness: concrete instance of `respondUDP_closed_passthrough` —
a zero-byte write failing with the closed-socket error has that error
returned as-is, undecorated. -/
theorem respondUDP_closed_passthrough_witness :
    respondUDP (fun _ => .ok [9]) (fun _ _ _ _ => (0, some (.base "closed")))
      (fun e => e = some (.base "closed"))
      { proto := .ProtoUDP, Req := none, Res := some ⟨7⟩,
        Addr := .udpAddr ⟨3⟩, Conn := .udpConn ⟨2⟩, localIP := ⟨1⟩ } =
      .ok (some (.base "closed")) :=
  (respondUDP_closed_passthrough (fun _ => .ok [9])
      (fun _ _ _ _ => (0, some (.base "closed")))
      (fun e => e = some (.base "closed")) _ ⟨7⟩ ⟨2⟩ ⟨3⟩ [9]
      rfl rfl rfl rfl).1 (.base "closed") rfl rfl (by decide)

/-- C10: `respondUDP` is fault-free under the unchecked preconditions
(response set, connection and peer address of the concrete UDP types),
and under no weaker ones: with an unset response it faults with a nil
dereference for every codec and write function, and with a successful
encode but a non-UDP-typed connection or address it faults with a
failed type assertion — there is no checking and no graceful error
branch for these cases. -/
theorem respondUDP_unchecked_preconditions :
    (∀ pack udpWrite isConnClosed (d : DNSContext) resp conn rAddr,
        d.Res = some resp → d.Conn = .udpConn conn → d.Addr = .udpAddr rAddr →
        ∀ f, respondUDP pack udpWrite isConnClosed d ≠ .error f)
    ∧ (∀ pack udpWrite isConnClosed (d : DNSContext), d.Res = none →
        respondUDP pack udpWrite isConnClosed d = .error .nilDeref)
    ∧ (∀ udpWrite isConnClosed (d : DNSContext) resp i,
        d.Res = some resp → d.Conn = .otherConn i →
        respondUDP (fun _ => .ok []) udpWrite isConnClosed d =
          .error .badTypeAssertion)
    ∧ (∀ udpWrite isConnClosed (d : DNSContext) resp conn i,
        d.Res = some resp → d.Conn = .udpConn conn → d.Addr = .otherAddr i →
        respondUDP (fun _ => .ok []) udpWrite isConnClosed d =
          .error .badTypeAssertion) := by
  refine ⟨?_, ?_, ?_, ?_⟩
  · intro pack udpWrite isConnClosed d resp conn rAddr hres hconn haddr f
    cases hp : pack resp with
    | error e => simp [respondUDP, hres, hconn, haddr, hp]
    | ok bytes =>
      simp only [respondUDP, hres, hconn, haddr, hp]
      split
      · simp
      · split
        · simp
        · split <;> simp
  · intro pack udpWrite isConnClosed d hres
    simp [respondUDP, hres]
  · intro udpWrite isConnClosed d resp i hres hconn
    simp [respondUDP, hres, hconn]
  · intro udpWrite isConnClosed d resp conn i hres hconn haddr
    simp [respondUDP, hres, hconn, haddr]

/-- C10 witness: concrete instance of `respondUDP_unchecked_preconditions`
— a context with an unset response faults with a nil dereference. -/
theorem respondUDP_unchecked_preconditions_witness :
    respondUDP (fun _ => .ok []) (fun _ _ _ _ => (0, none)) (fun _ => false)
      { proto := .ProtoUDP, Req := none, Res := none,
        Addr := .udpAddr ⟨3⟩, Conn := .udpConn ⟨2⟩, localIP := ⟨1⟩ } =
      .error .nilDeref :=
  respondUDP_unchecked_preconditions.2.1 (fun _ => .ok [])
    (fun _ _ _ _ => (0, none)) (fun _ => false) _ rfl

/-! ## Packet handler theorems -/

/-- C7: on a byte buffer that fails to decode, `udpHandlePacket` only
logs (trace line, then the decode-error line): the external resolver is
never invoked, so nothing downstream can send a response, and no error
is surfaced (the function returns effects only).  Moreover the
ingestion loop's continue/exit decision never depends on the packet
bytes: any iteration whose read reported no error continues the loop,
whatever the datagram contained. -/
theorem udpHandlePacket_decode_failure
    (unpack : List Nat → Except GoError Msg)
    (handleDNSRequest : DNSContext → Option GoError)
    (packet : List Nat) (localIP : IP) (remoteAddr : UDPAddr)
    (conn : UDPConn) (e : GoError)
    (hdec : unpack packet = .error e) :
    udpHandlePacket unpack handleDNSRequest packet localIP remoteAddr conn =
      [.logTrace, .logError]
    ∧ (∀ d : DNSContext,
        .resolved d ∉
          udpHandlePacket unpack handleDNSRequest packet localIP remoteAddr conn)
    ∧ (∀ ev : ReadEvent, ev.started = true → ev.err = none →
        continues ev = true) := by
  refine ⟨by simp [udpHandlePacket, hdec], ?_, ?_⟩
  · intro d
    simp [udpHandlePacket, hdec]
  · intro ev hst herr
    simp [continues, hst, herr]

/-- C7 witness: concrete instance of `udpHandlePacket_decode_failure` —
an undecodable packet produces only the two log effects. -/
theorem udpHandlePacket_decode_failure_witness :
    udpHandlePacket (fun _ => .error (.base "bad wire format"))
      (fun _ => none) [0, 255] ⟨1⟩ ⟨3⟩ ⟨2⟩ = [.logTrace, .logError] :=
  (udpHandlePacket_decode_failure (fun _ => .error (.base "bad wire format"))
      (fun _ => none) [0, 255] ⟨1⟩ ⟨3⟩ ⟨2⟩ (.base "bad wire format") rfl).1

/-! ## Ingestion loop theorems -/

/-- Unrolling of `loopRun` over a prefix of iterations that all fall
through to the next iteration. -/
theorem loopRun_append (pre rest : List ReadEvent)
    (h : ∀ x ∈ pre, continues x = true) :
    loopRun (pre ++ rest) = (pre.map iterTrace).flatten ++ loopRun rest := by
  induction pre with
  | nil => simp [loopRun]
  | cons e pre ih =>
    have he : continues e = true := h e (by simp)
    have hrest : ∀ x ∈ pre, continues x = true := fun x hx => h x (by simp [hx])
    simp [loopRun, he, ih hrest]

/-- The loop never emits a close action: `iterTrace` never contains
`closeConn`. -/
theorem closeConn_not_mem_iterTrace (e : ReadEvent) :
    Action.closeConn ∉ iterTrace e := by
  cases hst : e.started <;> by_cases hn : 0 < e.n <;>
    cases herr : e.err <;> simp [iterTrace, hst, hn, herr]

/-- C5: when an iteration's read returns both bytes (`n > 0`) and an
error, the copied datagram is dispatched and only then is the error
logged and the loop exited: after any prefix of normally-continuing
iterations, the trace ends with the dispatch of the first `n` read
bytes strictly before the log and the exit — the datagram delivered
alongside the error is not dropped. -/
theorem loop_dispatches_before_error_exit
    (pre : List ReadEvent) (e : ReadEvent) (rest : List ReadEvent)
    (er : GoError)
    (hpre : ∀ x ∈ pre, continues x = true)
    (hstart : e.started = true) (hn : 0 < e.n) (herr : e.err = some er) :
    loopRun (pre ++ e :: rest) =
      (pre.map iterTrace).flatten ++
        [.rlock, .checkFlag true, .runlock, .readCall,
         .acquireSlot, .dispatch (e.data.take e.n), .logMsg, .ret] := by
  rw [loopRun_append pre (e :: rest) hpre]
  simp [loopRun, iterTrace, continues, hstart, hn, herr]

/-- C5 witness: concrete instance of
`loop_dispatches_before_error_exit` — a read returning two bytes and an
error dispatches the two bytes, then logs and exits. -/
theorem loop_dispatches_before_error_exit_witness :
    loopRun [{ started := true, n := 2, data := [5, 6, 7],
               err := some (.base "io error") }] =
      [.rlock, .checkFlag true, .runlock, .readCall,
       .acquireSlot, .dispatch [5, 6], .logMsg, .ret] := by
  have h := loop_dispatches_before_error_exit []
    { started := true, n := 2, data := [5, 6, 7],
      err := some (.base "io error") } [] (.base "io error")
    (by simp) rfl (by decide) rfl
  simpa using h

/-- C6: every iteration of the loop checks the running flag before
reading (any iteration containing a read starts with the lock, a true
flag check and the unlock, in that order, before the read); once an
iteration observes the flag false the loop's whole trace ends right
there — no further read is issued; and no execution of the loop ever
closes a resource. -/
theorem loop_flag_checked_and_terminal
    : (∀ e : ReadEvent, e.started = false →
          iterTrace e = [.rlock, .checkFlag false, .ret])
    ∧ (∀ (pre : List ReadEvent) (e : ReadEvent) (rest : List ReadEvent),
          (∀ x ∈ pre, continues x = true) → e.started = false →
          loopRun (pre ++ e :: rest) =
            (pre.map iterTrace).flatten ++ [.rlock, .checkFlag false, .ret])
    ∧ (∀ e : ReadEvent, .readCall ∈ iterTrace e →
          ∃ tail, iterTrace e =
            .rlock :: .checkFlag true :: .runlock :: .readCall :: tail)
    ∧ (∀ evs : List ReadEvent, .closeConn ∉ loopRun evs) := by
  refine ⟨?_, ?_, ?_, ?_⟩
  · intro e hst
    simp [iterTrace, hst]
  · intro pre e rest hpre hst
    rw [loopRun_append pre (e :: rest) hpre]
    simp [loopRun, iterTrace, continues, hst]
  · intro e hmem
    cases hst : e.started with
    | false => simp [iterTrace, hst] at hmem
    | true =>
      refine ⟨(if 0 < e.n then [.acquireSlot, .dispatch (e.data.take e.n)]
          else []) ++
        (if e.err.isSome then [.logMsg, .ret] else []), ?_⟩
      simp [iterTrace, hst]
  · intro evs
    induction evs with
    | nil => simp [loopRun]
    | cons e rest ih =>
      simp only [loopRun, List.mem_append]
      rintro (h | h)
      · exact closeConn_not_mem_iterTrace e h
      · cases hc : continues e with
        | false => simp [hc] at h
        | true => exact ih (by simpa [hc] using h)

/-- C6 witness: concrete instance of `loop_flag_checked_and_terminal`
— a loop whose first iteration observes the flag false produces
exactly the lock/check/return trace and nothing else. -/
theorem loop_flag_checked_and_terminal_witness :
    loopRun [{ started := false, n := 0, data := [], err := none }] =
      [.rlock, .checkFlag false, .ret] := by
  have h := loop_flag_checked_and_terminal.2.1 []
    { started := false, n := 0, data := [], err := none } [] (by simp) rfl
  simpa using h

/-- C9 (refuted by the code): the iteration of `udpPacketLoop` that
observes the running flag false returns from the function immediately
after the `p.RLock()`-guarded check, without the matching
`p.RUnlock()`: its trace is exactly lock, check, return, holds one
more lock acquisition than releases, and contains no unlock at all. -/
theorem loop_flag_false_exit_holds_read_lock :
    loopRun [{ started := false, n := 0, data := [], err := none }] =
      [.rlock, .checkFlag false, .ret]
    ∧ rlockBalance
        (loopRun [{ started := false, n := 0, data := [], err := none }]) = 1
    ∧ Action.runlock ∉
        loopRun [{ started := false, n := 0, data := [], err := none }] := by
  refine ⟨rfl, by decide, by decide⟩

/-! ## Buffer copy theorems -/

/-- Appending a buffer and reading it back at the old length. -/
theorem bufAt_concat_length (h : Heap) (a : List Nat) :
    Heap.bufAt (h ++ [a]) h.length = a := by
  induction h with
  | nil => rfl
  | cons x h ih => simpa [Heap.bufAt] using ih

/-- Appending a buffer does not change the buffers below it. -/
theorem bufAt_concat_lt (h : Heap) (a : List Nat) (i : Nat)
    (hi : i < h.length) :
    Heap.bufAt (h ++ [a]) i = Heap.bufAt h i := by
  induction h generalizing i with
  | nil => exact absurd hi (by simp)
  | cons x h ih =>
    cases i with
    | zero => rfl
    | succ i => exact ih i (by simpa using hi)

/-- Setting the last buffer of a just-extended heap. -/
theorem set_concat_length (h : Heap) (a b : List Nat) :
    (h ++ [a]).set h.length b = h ++ [b] := by
  induction h with
  | nil => rfl
  | cons x h ih => simp [List.set, ih]

/-- Go's `copy` into a fresh zeroed buffer of length `n` from a source
of length at least `n` yields the source's first `n` bytes. -/
theorem goCopy_replicate (n : Nat) (src : List Nat) (hn : n ≤ src.length) :
    goCopy (List.replicate n 0) src = src.take n := by
  have hdrop : (List.replicate n (0 : Nat)).drop src.length = [] := by
    apply List.drop_eq_nil_of_le
    simpa using hn
  simp [goCopy, hdrop]

/-- C2: for a read depositing `n > 0` bytes in the loop's reusable
buffer `bId`, the dispatched packet buffer is a fresh allocation of
exactly `n` bytes, distinct from `bId`, holding a copy of the first
`n` bytes of the reusable buffer, and the reusable buffer itself is
left untouched — the handler is handed only the copy's index, never
`bId`. -/
theorem dispatchCopy_fresh (h : Heap) (bId n : Nat)
    (hb : bId < h.length) (_hn0 : 0 < n)
    (hlen : n ≤ (h.bufAt bId).length) :
    (dispatchCopy h bId n).2 ≠ bId
    ∧ ((dispatchCopy h bId n).1.bufAt (dispatchCopy h bId n).2).length = n
    ∧ (dispatchCopy h bId n).1.bufAt (dispatchCopy h bId n).2 =
        (h.bufAt bId).take n
    ∧ (dispatchCopy h bId n).1.bufAt bId = h.bufAt bId := by
  have hfresh : (dispatchCopy h bId n).2 = h.length := rfl
  have hsrc : Heap.bufAt (h ++ [List.replicate n 0]) bId = h.bufAt bId :=
    bufAt_concat_lt h _ bId hb
  have hdst : Heap.bufAt (h ++ [List.replicate n 0]) h.length =
      List.replicate n 0 := bufAt_concat_length h _
  have hheap : (dispatchCopy h bId n).1 = h ++ [(h.bufAt bId).take n] := by
    show (h ++ [List.replicate n 0]).set h.length
        (goCopy (Heap.bufAt (h ++ [List.replicate n 0]) h.length)
          (Heap.bufAt (h ++ [List.replicate n 0]) bId)) =
      h ++ [(h.bufAt bId).take n]
    rw [hsrc, hdst, goCopy_replicate n _ hlen, set_concat_length]
  refine ⟨by rw [hfresh]; omega, ?_, ?_, ?_⟩
  · rw [hheap, hfresh, bufAt_concat_length]
    simpa using hlen
  · rw [hheap, hfresh, bufAt_concat_length]
  · rw [hheap, bufAt_concat_lt h _ bId hb]

/-- C2 witness: concrete instance of `dispatchCopy_fresh` — copying
two bytes out of a four-byte reusable buffer yields a fresh two-byte
buffer with those bytes, leaving the reusable buffer intact. -/
theorem dispatchCopy_fresh_witness :
    (dispatchCopy [[1, 2, 3, 4]] 0 2).2 ≠ 0
    ∧ ((dispatchCopy [[1, 2, 3, 4]] 0 2).1.bufAt
        (dispatchCopy [[1, 2, 3, 4]] 0 2).2).length = 2
    ∧ (dispatchCopy [[1, 2, 3, 4]] 0 2).1.bufAt
        (dispatchCopy [[1, 2, 3, 4]] 0 2).2 =
        (Heap.bufAt [[1, 2, 3, 4]] 0).take 2
    ∧ (dispatchCopy [[1, 2, 3, 4]] 0 2).1.bufAt 0 =
        Heap.bufAt [[1, 2, 3, 4]] 0 :=
  dispatchCopy_fresh [[1, 2, 3, 4]] 0 2 (by decide) (by decide) (by decide)

/-! ## Concurrency gate theorems -/

/-- C1: for every reachable interleaving of task launches and task
finishes, the number of in-flight handler tasks satisfies
`0 ≤ in-flight ≤ max` (a slot being acquired before each launch and
released exactly once at each finish); moreover in the loop's own
trace every dispatched task is immediately preceded by its gate
acquisition. -/
theorem gate_inflight_bounded (max k : Nat) (h : GateReach max k) :
    (0 ≤ k ∧ k ≤ max)
    ∧ (∀ (e : ReadEvent) (p : List Nat), Action.dispatch p ∈ iterTrace e →
        ∃ post, iterTrace e =
          [.rlock, .checkFlag true, .runlock, .readCall] ++
            .acquireSlot :: .dispatch p :: post) := by
  constructor
  · refine ⟨Nat.zero_le k, ?_⟩
    induction h with
    | init => exact Nat.zero_le max
    | step hr hs ih =>
      cases hs with
      | launch hlt => omega
      | finish => omega
  · intro e p hmem
    cases hst : e.started with
    | false => simp [iterTrace, hst] at hmem
    | true =>
      by_cases hn : 0 < e.n
      · cases herr : e.err with
        | none =>
          simp [iterTrace, hst, hn, herr] at hmem
          subst hmem
          exact ⟨[], by simp [iterTrace, hst, hn, herr]⟩
        | some er =>
          simp [iterTrace, hst, hn, herr] at hmem
          subst hmem
          exact ⟨[.logMsg, .ret], by simp [iterTrace, hst, hn, herr]⟩
      · simp [iterTrace, hst, hn] at hmem

/-- C1 witness: concrete instance of `gate_inflight_bounded` — with
max 2 and one launch, the in-flight count 1 is within the bound. -/
theorem gate_inflight_bounded_witness : GateReach 2 1 ∧ 1 ≤ 2 := by
  have hreach : GateReach 2 1 := .step .init (.launch (by omega))
  exact ⟨hreach, (gate_inflight_bounded 2 1 hreach).1.2⟩

/-! ## Listener setup theorems -/

/-- Whether a setup result is a success. -/
def isOkResult (r : Except GoError Nat) : Bool :=
  match r with
  | .ok _ => true
  | .error _ => false

/-- C8: in `udpCreate`, a failure applying the configured positive
receive-buffer size, or applying the platform socket options, closes
the socket created in that call and returns a decorated error naming
the failed step; and `createUDPListeners` aborts on the first
per-address failure, returning exactly that error, with the closes
performed by the failing call present in the effects it returns. -/
theorem createUDPListeners_failure_behavior (bufSize : Int) :
    (∀ (a : AddrSpec) (e : GoError), a.listenErr = none → 0 < bufSize →
        a.setBufErr = some e →
        udpCreate bufSize a =
          ([.close a.sockId],
           .error (.decorated e "setting UDP buffer size failed")))
    ∧ (∀ (a : AddrSpec) (e : GoError), a.listenErr = none →
        (0 < bufSize → a.setBufErr = none) → a.setOptsErr = some e →
        udpCreate bufSize a =
          ([.close a.sockId], .error (.decorated e "udpSetOptions failed")))
    ∧ (∀ (pre : List AddrSpec) (a : AddrSpec) (rest : List AddrSpec)
          (e : GoError),
        (∀ x ∈ pre, isOkResult (udpCreate bufSize x).2 = true) →
        (udpCreate bufSize a).2 = .error e →
        (createUDPListeners bufSize (pre ++ a :: rest)).2 = .error e
        ∧ ∀ i, SockEffect.close i ∈ (udpCreate bufSize a).1 →
            SockEffect.close i ∈
              (createUDPListeners bufSize (pre ++ a :: rest)).1) := by
  refine ⟨?_, ?_, ?_⟩
  · intro a e hlisten hpos hbuf
    simp [udpCreate, hlisten, hpos, hbuf]
  · intro a e hlisten hbuf hopts
    by_cases hpos : 0 < bufSize
    · simp [udpCreate, hlisten, hpos, hbuf hpos, hopts]
    · simp [udpCreate, hlisten, hpos, hopts]
  · intro pre a rest e hok herr
    induction pre with
    | nil =>
      refine ⟨?_, ?_⟩
      · simp [createUDPListeners, herr]
      · intro i hmem
        simp [createUDPListeners, herr, hmem]
    | cons x pre ih =>
      have hx : isOkResult (udpCreate bufSize x).2 = true := hok x (by simp)
      have hrest : ∀ y ∈ pre, isOkResult (udpCreate bufSize y).2 = true :=
        fun y hy => hok y (by simp [hy])
      cases hres : (udpCreate bufSize x).2 with
      | error e2 => rw [hres] at hx; simp [isOkResult] at hx
      | ok sid =>
        have ihh := ih hrest
        refine ⟨?_, ?_⟩
        · simp [createUDPListeners, hres, ihh.1, Except.map]
        · intro i hmem
          have hm := ihh.2 i hmem
          simp [createUDPListeners, hres]
          right
          exact hm

/-- C8 witness: concrete instance of
`createUDPListeners_failure_behavior` — after one successful listener,
an address whose buffer-size step fails makes setup abort with the
decorated buffer-size error, the failing call's socket having been
closed. -/
theorem createUDPListeners_failure_behavior_witness :
    (createUDPListeners 4096
        [{ listenErr := none, sockId := 1, setBufErr := none,
           setOptsErr := none },
         { listenErr := none, sockId := 2,
           setBufErr := some (.base "ENOBUFS"), setOptsErr := none }]).2 =
      .error (.decorated (.base "ENOBUFS") "setting UDP buffer size failed")
    ∧ SockEffect.close 2 ∈
        (createUDPListeners 4096
          [{ listenErr := none, sockId := 1, setBufErr := none,
             setOptsErr := none },
           { listenErr := none, sockId := 2,
             setBufErr := some (.base "ENOBUFS"), setOptsErr := none }]).1 := by
  have h := (createUDPListeners_failure_behavior 4096).2.2
    [{ listenErr := none, sockId := 1, setBufErr := none,
       setOptsErr := none }]
    { listenErr := none, sockId := 2,
      setBufErr := some (.base "ENOBUFS"), setOptsErr := none }
    [] (.decorated (.base "ENOBUFS") "setting UDP buffer size failed")
    (by decide) rfl
  exact ⟨h.1, h.2 2 (by decide)⟩

end DnsProxy
